import Mathlib

/-!
Verification of the offline-translator backend (`src/backend`).

Python strings are modelled as `List Char`.  The functions below are shallow
embeddings of `services/pipeline.py` and `main.py`:

* `protectTerms`  embeds `TranslationService._protect_terms`,
* `restoreTerms`  embeds the restoration loop of `TranslationService.translate`,
* `translate`     embeds `TranslationService.translate` with the neural model
                  abstracted as a function `model : List Char → List Char`,
* `loadLang` / `generate_speech` embed `TTSService.load_lang` and
  `TTSService.generate_speech`, with asset availability abstracted as an
  oracle `loadable : String → Bool`,
* `transcribe`    embeds `STTService.transcribe` with the three fallible
  collaborators (librosa load, debug-wav write, whisper inference) abstracted
  as oracles,
* `translateAudio` embeds the orchestration of `main.py`'s `translate_audio`
  after the upload has been saved, with the STT and translation stages
  abstracted.
-/

/-- ASCII lower-casing of one character, the behaviour of Python's
`str.lower` / `re.IGNORECASE` on the ASCII range. -/
def lowerChar (c : Char) : Char :=
  if 65 ≤ c.toNat ∧ c.toNat ≤ 90 then Char.ofNat (c.toNat + 32) else c

/-- Case-insensitive "the pattern matches at the start of `s`":
the comparison `re.IGNORECASE` performs at one position. -/
def ciStartsWith : List Char → List Char → Bool
  | [], _ => true
  | _ :: _, [] => false
  | p :: ps, c :: cs => (lowerChar p == lowerChar c) && ciStartsWith ps cs

/-- Case-insensitive occurrence test: `re.compile(re.escape(pat),
re.IGNORECASE).findall(s)` is non-empty.  The empty pattern matches
everywhere, as in Python. -/
def ciOccurs (pat : List Char) : List Char → Bool
  | [] => pat.isEmpty
  | c :: cs => ciStartsWith pat (c :: cs) || ciOccurs pat cs

/-- Case-sensitive "starts with": the comparison `str.replace` performs at
one position. -/
def startsWithExact : List Char → List Char → Bool
  | [], _ => true
  | _ :: _, [] => false
  | p :: ps, c :: cs => (p == c) && startsWithExact ps cs

/-- Case-sensitive occurrence test (`pat in s` for Python strings). -/
def occursExact (pat : List Char) : List Char → Bool
  | [] => pat.isEmpty
  | c :: cs => startsWithExact pat (c :: cs) || occursExact pat cs

/-- Fuel-driven worker for `ciReplaceAll`.  The fuel only makes the
recursion structural (so the kernel can evaluate it); every call from
`ciReplaceAll` supplies `fuel ≥ s.length`, which makes the `0, s` fallback
unreachable, since a cons step consumes at least one character. -/
def ciReplaceFuel (pat repl : List Char) : Nat → List Char → List Char
  | _, [] => if pat.isEmpty then repl else []
  | 0, s => s
  | fuel + 1, c :: cs =>
    if (!pat.isEmpty) && ciStartsWith pat (c :: cs) then
      repl ++ ciReplaceFuel pat repl fuel (List.drop (pat.length - 1) cs)
    else if pat.isEmpty then
      repl ++ c :: ciReplaceFuel pat repl fuel cs
    else
      c :: ciReplaceFuel pat repl fuel cs

/-- `re.compile(re.escape(pat), re.IGNORECASE).sub(repl, s)`: replace every
non-overlapping case-insensitive occurrence of `pat` in `s`, left to right.
An empty pattern inserts `repl` at every position, as Python's `re.sub`
does. -/
def ciReplaceAll (pat repl s : List Char) : List Char :=
  ciReplaceFuel pat repl s.length s

/-- Fuel-driven worker for `replaceAllExact`; the fuel is as in
`ciReplaceFuel`. -/
def replaceExactFuel (pat repl : List Char) : Nat → List Char → List Char
  | _, [] => if pat.isEmpty then repl else []
  | 0, s => s
  | fuel + 1, c :: cs =>
    if (!pat.isEmpty) && startsWithExact pat (c :: cs) then
      repl ++ replaceExactFuel pat repl fuel (List.drop (pat.length - 1) cs)
    else if pat.isEmpty then
      repl ++ c :: replaceExactFuel pat repl fuel cs
    else
      c :: replaceExactFuel pat repl fuel cs

/-- `s.replace(pat, repl)` for Python strings: replace every non-overlapping
exact occurrence of `pat` in `s`, left to right.  An empty pattern inserts
`repl` at every position, as Python's `str.replace` does. -/
def replaceAllExact (pat repl s : List Char) : List Char :=
  replaceExactFuel pat repl s.length s

/-- One record of `core/context_dictionary.json`: `{"term": ...,
"translation": ...}` with `term` the English side and `translation` the
Hindi side. -/
structure Entry where
  term : List Char
  translation : List Char
deriving DecidableEq

/-- Decimal digit to character, as in Python's `str(int)`. -/
def digitChar (d : Nat) : Char := Char.ofNat (48 + d)

/-- Fuel-driven worker for `decRepr`; every call supplies `fuel ≥ n`, which
makes the `0` case reachable only with `n = 0`, where it is correct. -/
def decReprFuel : Nat → Nat → List Char
  | 0, n => [digitChar n]
  | fuel + 1, n =>
    if n < 10 then [digitChar n]
    else decReprFuel fuel (n / 10) ++ [digitChar (n % 10)]

/-- Decimal representation of a natural number, the digits produced by
Python's string formatting `f"{counter}"`. -/
def decRepr (n : Nat) : List Char :=
  decReprFuel n n

/-- The placeholder `f"__CTX_{n}__"` generated by `_protect_terms`. -/
def placeholderFor (n : Nat) : List Char :=
  "__CTX_".data ++ decRepr n ++ "__".data

/-- The fold state of the loop of `_protect_terms`:
`(processed_text, protected_map, counter)`.  The map is an association list
in insertion order, matching Python dict iteration order. -/
abbrev ProtectState := List Char × List (List Char × List Char) × Nat

/-- The body of the `for entry in sorted_terms` loop of `_protect_terms`
(pipeline.py lines 137-160).  For en→hi the search pattern is the term
(the code matches `term.lower()` under `re.IGNORECASE`, which is the same
case-insensitive match as the term itself) and the stored replacement is the
entry's translation; for hi→en the search pattern is the translation and the
stored replacement is the lower-cased term `entry['term'].lower()`. -/
def protectStep (src tgt : String) (st : ProtectState) (e : Entry) : ProtectState :=
  if src = "en" ∧ tgt = "hi" then
    if ciOccurs e.term st.1 then
      (ciReplaceAll e.term (placeholderFor st.2.2) st.1,
        st.2.1 ++ [(placeholderFor st.2.2, e.translation)], st.2.2 + 1)
    else st
  else if src = "hi" ∧ tgt = "en" then
    if ciOccurs e.translation st.1 then
      (ciReplaceAll e.translation (placeholderFor st.2.2) st.1,
        st.2.1 ++ [(placeholderFor st.2.2, e.term.map lowerChar)], st.2.2 + 1)
    else st
  else st

/-- Insert an entry into a list already sorted by term length descending,
after all entries of greater or equal term length (the stable placement
Python's `sorted(..., key=len(term), reverse=True)` gives). -/
def insertDesc (e : Entry) : List Entry → List Entry
  | [] => [e]
  | x :: xs =>
    if x.term.length < e.term.length then e :: x :: xs
    else x :: insertDesc e xs

/-- Stable sort by term length descending:
`sorted(context_dict, key=lambda x: len(x['term']), reverse=True)`
(pipeline.py line 135). -/
def sortedTerms : List Entry → List Entry
  | [] => []
  | x :: xs => insertDesc x (sortedTerms xs)

/-- `TranslationService._protect_terms(text, src_lang, tgt_lang)`
(pipeline.py lines 116-162): returns `(processed_text, protected_map)`. -/
def protectTerms (dict : List Entry) (text : List Char) (src tgt : String) :
    List Char × List (List Char × List Char) :=
  let final := (sortedTerms dict).foldl (protectStep src tgt) (text, [], 0)
  (final.1, final.2.1)

/-- The restoration loop of `TranslationService.translate` (pipeline.py
lines 174-180): `for placeholder, replacement in protection_map.items():
translated_text = translated_text.replace(placeholder, replacement)`. -/
def restoreTerms (m : List (List Char × List Char)) (t : List Char) : List Char :=
  m.foldl (fun acc p => replaceAllExact p.1 p.2 acc) t

/-- `TranslationService.translate(text, src_lang, tgt_lang)` (pipeline.py
lines 164-180) with the M2M100 model call abstracted as `model`. -/
def TranslationService.translate (dict : List Entry) (model : List Char → List Char)
    (text : List Char) (src tgt : String) : List Char :=
  let masked := protectTerms dict text src tgt
  restoreTerms masked.2 (model masked.1)

/-- The configured TTS language set: the keys of `TTS_LANGUAGES` in
`core/config.py` (lines 20-29). -/
def ttsLanguages : List String := ["en", "fr", "de", "es", "hi", "zh", "ar", "ru"]

/-- The mutable state of `TTSService`: the set of language codes whose model
and tokenizer have been loaded into `self.models` / `self.tokenizers`
(both dictionaries are always updated together). -/
structure TTSState where
  models : List String
deriving DecidableEq

/-- `TTSService.load_lang(lang_code)` (pipeline.py lines 191-211) with asset
availability abstracted as `loadable` (true iff the local model directory
exists and `VitsModel`/`AutoTokenizer` load without raising).  On a failed
load nothing is cached and, when the language is not `"en"`, the method
recurses once onto `"en"`; that single-level recursion is inlined here. -/
def TTSService.load_lang (loadable : String → Bool) (st : TTSState)
    (lang : String) : TTSState :=
  if lang ∈ st.models then st
  else if loadable lang then ⟨lang :: st.models⟩
  else if lang ≠ "en" then
    if "en" ∈ st.models then st
    else if loadable "en" then ⟨"en" :: st.models⟩
    else st
  else st

/-- `TTSService.generate_speech(text, language, output_file)` (pipeline.py
lines 213-238).  Synthesis itself is abstracted: a successful call returns
the new cache state together with the language code of the model that
synthesized the waveform.  The raised `Exception("No suitable TTS model
loaded")` becomes the `Except.error` case. -/
def TTSService.generate_speech (loadable : String → Bool) (st : TTSState)
    (language : String) : Except String (TTSState × String) :=
  let use0 := if language ∈ ttsLanguages then language else "en"
  let st1 := TTSService.load_lang loadable st use0
  let use1 := if use0 ∉ st1.models ∧ "en" ∈ st1.models then "en" else use0
  if use1 ∈ st1.models then Except.ok (st1, use1)
  else Except.error "No suitable TTS model loaded"

/-- `STTService.transcribe(audio_path, language)` (pipeline.py lines 57-94)
with its three fallible collaborators abstracted:

* `validateRes` — the outcome of `_validate_audio` (lines 24-41), which
  catches every exception itself and returns `none` on failure;
* `debugWriteRes` — the outcome of the `scipy.io.wavfile.write` debug call
  on line 68, which sits outside any `try`, so its error propagates;
* `whisperRes` — the outcome of `self.model.transcribe(...)` on line 88,
  wrapped in `try/except` returning `""`.

The returned transcript is `result["text"].strip()`. -/
def STTService.transcribe (validateRes : Option Unit)
    (debugWriteRes : Except String Unit) (whisperRes : Except String String) :
    Except String String :=
  match validateRes with
  | none => Except.ok ""
  | some _ =>
    match debugWriteRes with
    | Except.error e => Except.error e
    | Except.ok _ =>
      match whisperRes with
      | Except.ok t => Except.ok t.trim
      | Except.error _ => Except.ok ""

/-- The JSON body returned by the `/translate` endpoint. -/
structure PipelineResult where
  transcript : String
  translation : String
  audio_url : Option String
deriving DecidableEq

/-- The orchestration of `main.py`'s `translate_audio` (lines 101-131) after
the upload is saved: run STT (a raised exception becomes a 500 error), on an
empty transcript return `{"transcript": "", "translation": "", "audio_url":
None}` immediately, otherwise run translation (a raised exception becomes a
500 error).  The boolean of the successful result records whether the
translation stage was invoked. -/
def translateAudio (transcribeRes : Except String String)
    (translateFn : String → Except String String) :
    Except String (PipelineResult × Bool) :=
  match transcribeRes with
  | Except.error e => Except.error ("STT Error: " ++ e)
  | Except.ok transcript =>
    if transcript = "" then Except.ok (⟨"", "", none⟩, false)
    else
      match translateFn transcript with
      | Except.error e => Except.error ("Translation Error: " ++ e)
      | Except.ok tr => Except.ok (⟨transcript, tr, none⟩, true)

/-! ### Helper lemmas -/

/-- Numeric value of a decimal digit character. -/
def decVal (c : Char) : Nat := c.toNat - 48

/-- Parse a decimal digit string back to a number. -/
def decParse (l : List Char) : Nat := l.foldl (fun acc c => 10 * acc + decVal c) 0

theorem decVal_digitChar (d : Nat) (hd : d < 10) : decVal (digitChar d) = d := by
  interval_cases d <;> rfl

theorem decParse_append_digit (a : List Char) (c : Char) :
    decParse (a ++ [c]) = 10 * decParse a + decVal c := by
  simp [decParse, List.foldl_append]

theorem decParse_decReprFuel :
    ∀ fuel n : Nat, n ≤ fuel → decParse (decReprFuel fuel n) = n := by
  intro fuel
  induction fuel with
  | zero =>
    intro n hn
    have h0 : n = 0 := by omega
    subst h0
    rfl
  | succ fuel ih =>
    intro n hn
    rw [decReprFuel]
    by_cases h : n < 10
    · simp only [if_pos h]
      simpa [decParse] using decVal_digitChar n h
    · simp only [if_neg h]
      rw [decParse_append_digit, ih (n / 10) (by omega),
        decVal_digitChar (n % 10) (by omega)]
      omega

theorem decRepr_inj {a b : Nat} (h : decRepr a = decRepr b) : a = b := by
  have ha := decParse_decReprFuel a a le_rfl
  have hb := decParse_decReprFuel b b le_rfl
  unfold decRepr at h
  rw [h] at ha
  omega

theorem placeholderFor_inj {a b : Nat} (h : placeholderFor a = placeholderFor b) :
    a = b := by
  unfold placeholderFor at h
  rw [List.append_assoc, List.append_assoc] at h
  exact decRepr_inj (List.append_cancel_right (List.append_cancel_left h))

theorem mem_insertDesc {x e : Entry} :
    ∀ l : List Entry, x ∈ insertDesc e l ↔ x = e ∨ x ∈ l := by
  intro l
  induction l with
  | nil => simp [insertDesc]
  | cons y ys ih =>
    simp only [insertDesc]
    split
    · simp
    · simp [ih]
      tauto

theorem mem_sortedTerms {x : Entry} :
    ∀ l : List Entry, x ∈ sortedTerms l ↔ x ∈ l := by
  intro l
  induction l with
  | nil => simp [sortedTerms]
  | cons y ys ih => simp [sortedTerms, mem_insertDesc, ih]

theorem pairwise_insertDesc {e : Entry} :
    ∀ {l : List Entry}, l.Pairwise (fun a b => b.term.length ≤ a.term.length) →
      (insertDesc e l).Pairwise (fun a b => b.term.length ≤ a.term.length) := by
  intro l
  induction l with
  | nil => simp [insertDesc]
  | cons y ys ih =>
    intro h
    rw [List.pairwise_cons] at h
    obtain ⟨h1, h2⟩ := h
    rw [insertDesc]
    split
    · rename_i hlen
      refine List.pairwise_cons.2 ⟨?_, List.pairwise_cons.2 ⟨h1, h2⟩⟩
      intro b hb
      rcases List.mem_cons.1 hb with hb | hb
      · subst hb; omega
      · have := h1 b hb; omega
    · rename_i hlen
      refine List.pairwise_cons.2 ⟨?_, ih h2⟩
      intro b hb
      rcases (mem_insertDesc _).1 hb with hb | hb
      · subst hb; omega
      · exact h1 b hb

theorem sortedTerms_pairwise :
    ∀ l : List Entry,
      (sortedTerms l).Pairwise (fun a b => b.term.length ≤ a.term.length) := by
  intro l
  induction l with
  | nil => simp [sortedTerms]
  | cons y ys ih => exact pairwise_insertDesc ih

theorem foldl_fixed {α β : Type} {f : α → β → α} {st : α} :
    ∀ l : List β, (∀ e ∈ l, f st e = st) → l.foldl f st = st := by
  intro l
  induction l with
  | nil => intro _; rfl
  | cons x xs ih =>
    intro h
    simp only [List.foldl_cons]
    rw [h x (by simp)]
    exact ih fun e he => h e (by simp [he])

theorem protectStep_other {src tgt : String} (h1 : ¬(src = "en" ∧ tgt = "hi"))
    (h2 : ¬(src = "hi" ∧ tgt = "en")) (st : ProtectState) (e : Entry) :
    protectStep src tgt st e = st := by
  simp [protectStep, h1, h2]

/-- Invariant of the `_protect_terms` fold: the keys of the protected map
are the placeholders of a strictly increasing list of indices, all below the
current counter. -/
def keysInv (st : ProtectState) : Prop :=
  ∃ ns : List Nat, st.2.1.map Prod.fst = ns.map placeholderFor ∧
    ns.Pairwise (· < ·) ∧ ∀ i ∈ ns, i < st.2.2

theorem keysInv_snoc {m : List (List Char × List Char)} {k : Nat}
    (ns : List Nat) (hmap : m.map Prod.fst = ns.map placeholderFor)
    (hpw : ns.Pairwise (· < ·)) (hlt : ∀ i ∈ ns, i < k)
    (t' v : List Char) :
    keysInv (t', m ++ [(placeholderFor k, v)], k + 1) := by
  refine ⟨ns ++ [k], ?_, ?_, ?_⟩
  · show (m ++ [(placeholderFor k, v)]).map Prod.fst = (ns ++ [k]).map placeholderFor
    simp [hmap]
  · rw [List.pairwise_append]
    exact ⟨hpw, by simp, by simpa using hlt⟩
  · show ∀ i ∈ ns ++ [k], i < k + 1
    intro i hi
    rcases List.mem_append.1 hi with hi | hi
    · have := hlt i hi; omega
    · simp at hi; omega

theorem protectStep_keysInv {src tgt : String} {st : ProtectState} (e : Entry)
    (h : keysInv st) : keysInv (protectStep src tgt st e) := by
  obtain ⟨ns, hmap, hpw, hlt⟩ := h
  unfold protectStep
  split
  · split
    · exact keysInv_snoc ns hmap hpw hlt _ _
    · exact ⟨ns, hmap, hpw, hlt⟩
  · split
    · split
      · exact keysInv_snoc ns hmap hpw hlt _ _
      · exact ⟨ns, hmap, hpw, hlt⟩
    · exact ⟨ns, hmap, hpw, hlt⟩

theorem foldl_keysInv {src tgt : String} :
    ∀ (l : List Entry) (st : ProtectState), keysInv st →
      keysInv (l.foldl (protectStep src tgt) st) := by
  intro l
  induction l with
  | nil => intro st h; exact h
  | cons x xs ih =>
    intro st h
    simp only [List.foldl_cons]
    exact ih _ (protectStep_keysInv x h)

theorem protectStep_values_en_hi {st : ProtectState} {e : Entry}
    {p : List Char × List Char} (hp : p ∈ (protectStep "en" "hi" st e).2.1) :
    p ∈ st.2.1 ∨ p.2 = e.translation := by
  unfold protectStep at hp
  rw [if_pos ⟨rfl, rfl⟩] at hp
  by_cases h : ciOccurs e.term st.1 = true
  · rw [if_pos h] at hp
    rcases List.mem_append.1 hp with hin | hin
    · exact Or.inl hin
    · simp at hin
      exact Or.inr (by rw [hin])
  · rw [if_neg h] at hp
    exact Or.inl hp

theorem protectStep_values_hi_en {st : ProtectState} {e : Entry}
    {p : List Char × List Char} (hp : p ∈ (protectStep "hi" "en" st e).2.1) :
    p ∈ st.2.1 ∨ p.2 = e.term.map lowerChar := by
  unfold protectStep at hp
  rw [if_neg (by simp), if_pos ⟨rfl, rfl⟩] at hp
  by_cases h : ciOccurs e.translation st.1 = true
  · rw [if_pos h] at hp
    rcases List.mem_append.1 hp with hin | hin
    · exact Or.inl hin
    · simp at hin
      exact Or.inr (by rw [hin])
  · rw [if_neg h] at hp
    exact Or.inl hp

theorem foldl_values_en_hi :
    ∀ (l : List Entry) (st : ProtectState) (p : List Char × List Char),
      p ∈ (l.foldl (protectStep "en" "hi") st).2.1 →
      p ∈ st.2.1 ∨ ∃ e ∈ l, p.2 = e.translation := by
  intro l
  induction l with
  | nil => intro st p hp; exact Or.inl hp
  | cons x xs ih =>
    intro st p hp
    simp only [List.foldl_cons] at hp
    rcases ih _ p hp with h | ⟨e, he, hv⟩
    · rcases protectStep_values_en_hi h with h' | h'
      · exact Or.inl h'
      · exact Or.inr ⟨x, by simp, h'⟩
    · exact Or.inr ⟨e, by simp [he], hv⟩

theorem foldl_values_hi_en :
    ∀ (l : List Entry) (st : ProtectState) (p : List Char × List Char),
      p ∈ (l.foldl (protectStep "hi" "en") st).2.1 →
      p ∈ st.2.1 ∨ ∃ e ∈ l, p.2 = e.term.map lowerChar := by
  intro l
  induction l with
  | nil => intro st p hp; exact Or.inl hp
  | cons x xs ih =>
    intro st p hp
    simp only [List.foldl_cons] at hp
    rcases ih _ p hp with h | ⟨e, he, hv⟩
    · rcases protectStep_values_hi_en h with h' | h'
      · exact Or.inl h'
      · exact Or.inr ⟨x, by simp, h'⟩
    · exact Or.inr ⟨e, by simp [he], hv⟩

theorem replaceExactFuel_no_occur {pat repl : List Char} :
    ∀ (fuel : Nat) (s : List Char), occursExact pat s = false →
      replaceExactFuel pat repl fuel s = s := by
  intro fuel
  induction fuel with
  | zero =>
    intro s hs
    cases s with
    | nil =>
      unfold occursExact at hs
      unfold replaceExactFuel
      simp [hs]
    | cons c cs => rfl
  | succ fuel ih =>
    intro s hs
    cases s with
    | nil =>
      unfold occursExact at hs
      unfold replaceExactFuel
      simp [hs]
    | cons c cs =>
      unfold occursExact at hs
      rw [Bool.or_eq_false_iff] at hs
      have hpat : pat.isEmpty = false := by
        cases pat with
        | nil => simp [startsWithExact] at hs
        | cons p ps => rfl
      unfold replaceExactFuel
      rw [if_neg (by simp [hs.1]), if_neg (by simp [hpat])]
      rw [ih cs hs.2]

theorem replaceAllExact_no_occur {pat repl s : List Char}
    (h : occursExact pat s = false) : replaceAllExact pat repl s = s :=
  replaceExactFuel_no_occur s.length s h

theorem restoreTerms_no_occur :
    ∀ (m : List (List Char × List Char)) (t : List Char),
      (∀ p ∈ m, occursExact p.1 t = false) → restoreTerms m t = t := by
  intro m
  induction m with
  | nil => intro t _; rfl
  | cons q qs ih =>
    intro t h
    have h1 : replaceAllExact q.1 q.2 t = t :=
      replaceAllExact_no_occur (h q (by simp))
    simp only [restoreTerms, List.foldl_cons]
    rw [h1]
    exact ih t fun p hp => h p (by simp [hp])

theorem protectTerms_eq (dict : List Entry) (text : List Char) (src tgt : String) :
    protectTerms dict text src tgt =
      (((sortedTerms dict).foldl (protectStep src tgt) (text, [], 0)).1,
       ((sortedTerms dict).foldl (protectStep src tgt) (text, [], 0)).2.1) := rfl

theorem load_lang_fallback (loadable : String → Bool) (st : TTSState) (lang : String)
    (hnc : lang ∉ st.models) (hfail : loadable lang = false) (hne : lang ≠ "en") :
    TTSService.load_lang loadable st lang =
      (if "en" ∈ st.models then st
       else if loadable "en" then ⟨"en" :: st.models⟩ else st) := by
  unfold TTSService.load_lang
  rw [if_neg hnc, if_neg (by simp [hfail]), if_pos hne]

/-! ### Claim theorems -/

/-- Claim C1, counterexample.  With the glossary entry `hello → namaste` and
input `"hello"` (en→hi), masking emits the placeholder `__CTX_0__`, yet when
the model output `"oops"` does not contain that placeholder, `translate`
returns `"oops"` normally: the placeholder's replacement is silently
dropped and no `RestorationError` is signalled (the restoration loop is a
plain `str.replace`, a no-op on an absent placeholder). -/
theorem C1_restoration_counterexample :
    (protectTerms [Entry.mk "hello".data "namaste".data] "hello".data "en" "hi").2
        = [("__CTX_0__".data, "namaste".data)] ∧
    occursExact "__CTX_0__".data "oops".data = false ∧
    TranslationService.translate [Entry.mk "hello".data "namaste".data]
        (fun _ => "oops".data) "hello".data "en" "hi" = "oops".data :=
  ⟨by decide, by decide, by decide⟩

/-- Claim C1, amended.  When none of the mask map's placeholders occurs in
the model output, the restoration step of `translate` returns the model
output unchanged — missing placeholders are silently ignored, not signalled
as an error (`translate` is by definition `restoreTerms` applied to the
model's output on the masked text). -/
theorem C1_amended_restoration_is_silent (m : List (List Char × List Char))
    (t : List Char) (h : ∀ p ∈ m, occursExact p.1 t = false) :
    restoreTerms m t = t :=
  restoreTerms_no_occur m t h

/-- Witness for `C1_amended_restoration_is_silent` at a concrete mask map
and model output. -/
theorem C1_amended_witness :
    restoreTerms [("__CTX_0__".data, "namaste".data)] "oops".data = "oops".data :=
  C1_amended_restoration_is_silent _ _ (by decide)

/-- Claim C2: with overlapping glossary terms `"A B"` and `"A"` (in either
stored order, and for any translations), masking `"A B"` en→hi produces
exactly one placeholder, covering `"A B"`; and in general the entry list
`_protect_terms` iterates over is sorted by term length descending, so a
longer term is matched before a shorter overlapping one. -/
theorem C2_longest_match_precedence :
    (∀ tA tAB : List Char,
      protectTerms [Entry.mk "A B".data tAB, Entry.mk "A".data tA]
          "A B".data "en" "hi"
          = ("__CTX_0__".data, [("__CTX_0__".data, tAB)]) ∧
      protectTerms [Entry.mk "A".data tA, Entry.mk "A B".data tAB]
          "A B".data "en" "hi"
          = ("__CTX_0__".data, [("__CTX_0__".data, tAB)])) ∧
    (∀ dict : List Entry,
      (sortedTerms dict).Pairwise (fun a b => b.term.length ≤ a.term.length)) :=
  ⟨fun _ _ => ⟨rfl, rfl⟩, sortedTerms_pairwise⟩

/-- Claim C3, counterexample.  For the input text `"hello __CTX_0__"`, which
already contains the reserved placeholder pattern, the placeholder emitted
for `hello` is `__CTX_0__`, a substring of the original input; with an
identity translation model, restoration rewrites the user's original
`__CTX_0__` into `"namaste"` as well, so `restore` rewrote a portion of the
text that was not produced by masking. -/
theorem C3_collision_counterexample :
    occursExact "__CTX_0__".data "hello __CTX_0__".data = true ∧
    (protectTerms [Entry.mk "hello".data "namaste".data]
        "hello __CTX_0__".data "en" "hi").2.map Prod.fst = ["__CTX_0__".data] ∧
    TranslationService.translate [Entry.mk "hello".data "namaste".data]
        (fun s => s) "hello __CTX_0__".data "en" "hi" = "namaste namaste".data :=
  ⟨by decide, by decide, by decide⟩

/-- Claim C3, amended.  The placeholders generated within one
`_protect_terms` call are pairwise distinct (the counter increases
monotonically and the decimal suffix makes the placeholder strings
injective in the counter); however nothing prevents a placeholder from
colliding with input text that already contains the reserved pattern. -/
theorem C3_amended_placeholders_unique (dict : List Entry) (text : List Char)
    (src tgt : String) :
    ((protectTerms dict text src tgt).2.map Prod.fst).Pairwise
      (fun a b => a ≠ b) := by
  obtain ⟨ns, hmap, hpw, _⟩ :=
    foldl_keysInv (sortedTerms dict) ((text, [], 0) : ProtectState)
      ⟨[], rfl, List.Pairwise.nil, by simp⟩
  rw [protectTerms_eq]
  show (((sortedTerms dict).foldl (protectStep src tgt)
      (text, [], 0)).2.1.map Prod.fst).Pairwise _
  rw [hmap]
  exact List.Pairwise.map placeholderFor
    (fun a b hab h' => (Nat.ne_of_lt hab) (placeholderFor_inj h')) hpw

/-- Claim C4: requesting synthesis for a supported non-default language
whose assets fail to load, while the default language `"en"` is loadable
(or already cached), succeeds using the English model and leaves no cache
entry for the failed language — so a later request for it retries the load;
and if English's assets also fail to load, the call raises
`"No suitable TTS model loaded"`. -/
theorem C4_tts_fallback_no_cache (loadable : String → Bool) (st : TTSState)
    (lang : String) (hsup : lang ∈ ttsLanguages) (hne : lang ≠ "en")
    (hnc : lang ∉ st.models) (hfail : loadable lang = false) :
    ((loadable "en" = true ∨ "en" ∈ st.models) →
      ∃ st' : TTSState,
        TTSService.generate_speech loadable st lang = Except.ok (st', "en") ∧
        lang ∉ st'.models) ∧
    ((loadable "en" = false ∧ "en" ∉ st.models) →
      TTSService.generate_speech loadable st lang
        = Except.error "No suitable TTS model loaded") := by
  have hload := load_lang_fallback loadable st lang hnc hfail hne
  constructor
  · intro hen
    by_cases hm : "en" ∈ st.models
    · rw [if_pos hm] at hload
      refine ⟨st, ?_, hnc⟩
      unfold TTSService.generate_speech
      rw [if_pos hsup]
      dsimp only
      rw [hload]
      simp [hnc, hm]
    · have hlen : loadable "en" = true := by tauto
      rw [if_neg hm, if_pos hlen] at hload
      refine ⟨⟨"en" :: st.models⟩, ?_, by simp [hne, hnc]⟩
      unfold TTSService.generate_speech
      rw [if_pos hsup]
      dsimp only
      rw [hload]
      simp [hne, hnc]
  · rintro ⟨hlen, hm⟩
    rw [if_neg hm, if_neg (by simp [hlen])] at hload
    unfold TTSService.generate_speech
    rw [if_pos hsup]
    dsimp only
    rw [hload]
    simp [hnc, hm]

/-- Witness for `C4_tts_fallback_no_cache`: only English assets exist,
`"hi"` is requested; the call succeeds with the English model and `"hi"` is
not cached. -/
theorem C4_tts_fallback_witness :
    ∃ st' : TTSState,
      TTSService.generate_speech (fun l => l == "en") ⟨[]⟩ "hi"
        = Except.ok (st', "en") ∧ "hi" ∉ st'.models :=
  (C4_tts_fallback_no_cache (fun l => l == "en") ⟨[]⟩ "hi"
    (by decide) (by decide) (by simp) (by decide)).1 (Or.inl (by decide))

/-- Claim C5: when transcription yields the empty string, `translate_audio`
returns `{"transcript": "", "translation": "", "audio_url": None}` as a
successful (non-error) response, for every translation stage — the
translation function is never invoked (the result does not depend on it and
its invocation flag is `false`). -/
theorem C5_empty_transcript_short_circuit
    (translateFn : String → Except String String) :
    translateAudio (Except.ok "") translateFn
      = Except.ok (⟨"", "", none⟩, false) := rfl

/-- Claim C6: for every direction other than en→hi and hi→en,
`_protect_terms` returns the input text unchanged with an empty map, for
every glossary and every text. -/
theorem C6_unsupported_direction_pass_through (dict : List Entry)
    (text : List Char) (src tgt : String) (h1 : ¬(src = "en" ∧ tgt = "hi"))
    (h2 : ¬(src = "hi" ∧ tgt = "en")) :
    protectTerms dict text src tgt = (text, []) := by
  rw [protectTerms_eq, foldl_fixed _ (fun e _ => protectStep_other h1 h2 _ e)]

/-- Witness for `C6_unsupported_direction_pass_through` at the unsupported
direction en→fr. -/
theorem C6_unsupported_direction_witness :
    protectTerms [Entry.mk "hello".data "namaste".data] "hello".data "en" "fr"
      = ("hello".data, []) :=
  C6_unsupported_direction_pass_through _ _ _ _ (by decide) (by decide)

/-- Claim C7: in each supported direction, when no searched string of any
glossary entry (the term for en→hi, the translation for hi→en) occurs
case-insensitively in the text, `_protect_terms` is the identity: it
returns the text unchanged and an empty map. -/
theorem C7_no_match_noop (dict : List Entry) (text : List Char) :
    ((∀ e ∈ dict, ciOccurs e.term text = false) →
      protectTerms dict text "en" "hi" = (text, [])) ∧
    ((∀ e ∈ dict, ciOccurs e.translation text = false) →
      protectTerms dict text "hi" "en" = (text, [])) := by
  constructor
  · intro h
    have hstep : ∀ e ∈ sortedTerms dict,
        protectStep "en" "hi" ((text, [], 0) : ProtectState) e = (text, [], 0) := by
      intro e he
      have hocc := h e ((mem_sortedTerms _).1 he)
      unfold protectStep
      rw [if_pos ⟨rfl, rfl⟩, if_neg (by simp [hocc])]
    rw [protectTerms_eq, foldl_fixed _ hstep]
  · intro h
    have hstep : ∀ e ∈ sortedTerms dict,
        protectStep "hi" "en" ((text, [], 0) : ProtectState) e = (text, [], 0) := by
      intro e he
      have hocc := h e ((mem_sortedTerms _).1 he)
      unfold protectStep
      rw [if_neg (by simp), if_pos ⟨rfl, rfl⟩, if_neg (by simp [hocc])]
    rw [protectTerms_eq, foldl_fixed _ hstep]

/-- Witness for `C7_no_match_noop`: `hello` does not occur in `"xyz"`. -/
theorem C7_no_match_witness :
    protectTerms [Entry.mk "hello".data "namaste".data] "xyz".data "en" "hi"
      = ("xyz".data, []) :=
  (C7_no_match_noop [Entry.mk "hello".data "namaste".data] "xyz".data).1
    (by decide)

/-- Claim C8, counterexample.  In the hi→en direction the replacement
recorded in the mask map is `entry['term'].lower()`, not the glossary's
canonical casing: with the entry `NASA → nasahi` and input `"nasahi"`, the
recorded replacement is `"nasa"`, which differs from the canonical
`"NASA"`. -/
theorem C8_casing_counterexample :
    protectTerms [Entry.mk "NASA".data "nasahi".data] "nasahi".data "hi" "en"
        = ("__CTX_0__".data, [("__CTX_0__".data, "nasa".data)]) ∧
    "nasa".data ≠ "NASA".data :=
  ⟨by decide, by decide⟩

/-- Claim C8, amended.  For en→hi every replacement recorded in the mask
map is some entry's translation verbatim (canonical casing); for hi→en it
is some entry's term lower-cased — not the canonical casing whenever the
term contains an upper-case letter. -/
theorem C8_amended_replacement_values (dict : List Entry) (text : List Char) :
    (∀ p ∈ (protectTerms dict text "en" "hi").2,
      ∃ e ∈ dict, p.2 = e.translation) ∧
    (∀ p ∈ (protectTerms dict text "hi" "en").2,
      ∃ e ∈ dict, p.2 = e.term.map lowerChar) := by
  constructor
  · intro p hp
    rw [protectTerms_eq] at hp
    rcases foldl_values_en_hi _ _ p hp with h | ⟨e, he, hv⟩
    · simp at h
    · exact ⟨e, (mem_sortedTerms _).1 he, hv⟩
  · intro p hp
    rw [protectTerms_eq] at hp
    rcases foldl_values_hi_en _ _ p hp with h | ⟨e, he, hv⟩
    · simp at h
    · exact ⟨e, (mem_sortedTerms _).1 he, hv⟩

/-- Witness for `C8_amended_replacement_values` at the `NASA` glossary. -/
theorem C8_amended_witness :
    ∃ e ∈ [Entry.mk "NASA".data "nasahi".data],
      (("__CTX_0__".data, "nasa".data) : List Char × List Char).2
        = e.term.map lowerChar :=
  (C8_amended_replacement_values [Entry.mk "NASA".data "nasahi".data]
    "nasahi".data).2 ("__CTX_0__".data, "nasa".data) (by decide)

/-- Claim C9, counterexample.  `transcribe` can raise: the
`scipy.io.wavfile.write` debug call on pipeline.py line 68 sits outside any
`try`, so when it raises (audio loaded fine, whisper would have succeeded)
the exception propagates to the caller instead of returning `""`. -/
theorem C9_transcribe_counterexample :
    STTService.transcribe (some ()) (Except.error "disk full") (Except.ok "hi")
      = Except.error "disk full" := rfl

/-- Claim C9, amended.  `transcribe` returns `""` when audio
loading/validation fails, and returns normally (never raises) whenever the
debug-wav write succeeds — in particular a whisper inference failure also
yields `""`; only a failing debug write makes it raise. -/
theorem C9_amended_transcribe_behaviour :
    (∀ (d : Except String Unit) (w : Except String String),
      STTService.transcribe none d w = Except.ok "") ∧
    (∀ w : Except String String, ∃ t : String,
      STTService.transcribe (some ()) (Except.ok ()) w = Except.ok t) ∧
    (∀ e : String,
      STTService.transcribe (some ()) (Except.ok ()) (Except.error e)
        = Except.ok "") := by
  refine ⟨fun d w => rfl, fun w => ?_, fun e => rfl⟩
  cases w with
  | ok t => exact ⟨t.trim, rfl⟩
  | error e => exact ⟨"", rfl⟩

/-- Claim C10: a request for a language outside the configured
`TTS_LANGUAGES` set is silently turned into a request for the default
language `"en"` before any load is attempted — `generate_speech` behaves
exactly as if English had been requested, so no unsupported-language error
exists. -/
theorem C10_unsupported_tts_language_is_english (loadable : String → Bool)
    (st : TTSState) (lang : String) (h : lang ∉ ttsLanguages) :
    TTSService.generate_speech loadable st lang
      = TTSService.generate_speech loadable st "en" := by
  unfold TTSService.generate_speech
  dsimp only
  rw [if_neg h, if_pos (show "en" ∈ ttsLanguages by simp [ttsLanguages])]

/-- Witness for `C10_unsupported_tts_language_is_english` at the
unsupported code `"xx"`. -/
theorem C10_unsupported_tts_witness :
    TTSService.generate_speech (fun _ => false) ⟨[]⟩ "xx"
      = TTSService.generate_speech (fun _ => false) ⟨[]⟩ "en" :=
  C10_unsupported_tts_language_is_english _ _ _ (by decide)
